import Mathlib

/-!
Shallow embedding of the `windwatts_data` Python package
(`client_base.py`, `windwatts_wtk_client.py`, `wtk_client_full_hourly.py`).

Python dictionaries keyed by height become association lists, floats become
exact rationals (with a separate NaN constructor where Python float equality
semantics matter), remote interaction becomes an explicit oracle argument,
and fallible methods return `Except`.
-/

namespace Windwatts

/-- The kinds of Python exceptions the embedded methods can raise. -/
inductive PyErr where
  | valueError
  | typeError
  | runtimeError
  | indexError
  | nameError
  | attributeError
deriving DecidableEq, Repr

instance instDecEqExcept {ε α : Type} [DecidableEq ε] [DecidableEq α] :
    DecidableEq (Except ε α) := fun x y =>
  match x, y with
  | .error a, .error b =>
    if h : a = b then .isTrue (h ▸ rfl) else .isFalse (fun hc => h (Except.error.inj hc))
  | .error _, .ok _ => .isFalse (fun hc => Except.noConfusion hc)
  | .ok _, .error _ => .isFalse (fun hc => Except.noConfusion hc)
  | .ok a, .ok b =>
    if h : a = b then .isTrue (h ▸ rfl) else .isFalse (fun hc => h (Except.ok.inj hc))

/-! ### Python string comparison

Python compares strings lexicographically by Unicode code points, which is
exactly lexicographic comparison of the underlying character lists.  (The
built-in `String` order of Lean is not used because its decision procedure
does not reduce in the kernel.) -/

/-- Lexicographic comparison of character lists by code point, the order
Python string comparison uses. -/
def charsLe : List Char → List Char → Bool
  | [], _ => true
  | _ :: _, [] => false
  | a :: as, b :: bs => if a < b then true else if b < a then false else charsLe as bs

/-- Python string comparison `a <= b`. -/
def strLe (a b : String) : Bool :=
  charsLe a.data b.data

/-- The propositional form of `strLe`, used as the sorting relation. -/
def strLeR (a b : String) : Prop :=
  strLe a b = true

instance strLeR.decidableRel : DecidableRel strLeR := fun a b =>
  inferInstanceAs (Decidable (strLe a b = true))

/-- Python `sorted` on a list of strings (code-point lexicographic order).
Insertion sort produces the same sorted list as any other sorting algorithm
for the deduplicated inputs the client sorts. -/
def pySort (l : List String) : List String :=
  List.insertionSort strLeR l

/-- Helper for `pyDedup`: `seen` is the set of keys already emitted. -/
def pyDedupAux {α : Type} [DecidableEq α] : List α → List α → List α
  | [], _ => []
  | a :: l, seen => if a ∈ seen then pyDedupAux l seen else a :: pyDedupAux l (a :: seen)

/-- Python `list(dict.fromkeys(l))`: deduplication keeping the first
occurrence of each element, preserving order. -/
def pyDedup {α : Type} [DecidableEq α] (l : List α) : List α :=
  pyDedupAux l []

/-! ### Column-name truncation (`client_base._initialize_column_names`) -/

/-- Python `list.index(x)` restricted to the found case: position of the
first occurrence of `x`, `none` when absent (where Python raises
`ValueError`). -/
def pyIndex (x : String) : List String → Option Nat
  | [] => none
  | a :: l => if a = x then some 0 else (pyIndex x l).map (· + 1)

/-- The truncation step of `client_base._initialize_column_names`: given the
declared column names extracted from the `DESCRIBE` rows, compute
`column_names.index('index') + 1` and keep only that prefix; a `ValueError`
(marker column absent) leaves the list untouched. -/
def initColumnNames (columnNames : List String) : List String :=
  match pyIndex "index" columnNames with
  | some i => columnNames.take (i + 1)
  | none => columnNames

/-- Truncation at the LAST occurrence of the marker column, as the spec words
it ("truncated at the last occurrence of a marker column").  Stated from the
spec for comparison with `initColumnNames`, which embeds the source. -/
def truncateAtLastMarker (columnNames : List String) : List String :=
  match pyIndex "index" columnNames.reverse with
  | some i => columnNames.take (columnNames.length - i)
  | none => columnNames

/-! ### Height map and `client_base.find_relevant_columns`

`self.column_mapping` is a Python dict from integer heights to lists of
column names; it is embedded as an association list (keys distinct in any
state produced by `_initialize_column_mapping`). -/

/-- The columns grouped by height (`self.column_mapping`). -/
abbrev HeightMap : Type :=
  List (Int × List String)

/-- Python dict lookup `m[h]` / membership test, as an option. -/
def mlookup {α : Type} : List (Int × α) → Int → Option α
  | [], _ => none
  | (k, v) :: m, h => if k = h then some v else mlookup m h

/-- Python `m.keys()` in insertion order. -/
def mapKeys (m : HeightMap) : List Int :=
  m.map Prod.fst

/-- Python `max((h for h in ks if h <= height), default=None)`. -/
def pyMaxLE (ks : List Int) (height : Int) : Option Int :=
  match ks.filter (fun k => k ≤ height) with
  | [] => none
  | a :: l => some (l.foldl max a)

/-- Python `min((h for h in ks if h >= height), default=None)`. -/
def pyMinGE (ks : List Int) (height : Int) : Option Int :=
  match ks.filter (fun k => height ≤ k) with
  | [] => none
  | a :: l => some (l.foldl min a)

/-- The loop body of `find_relevant_columns` for one requested height:
exact hit extends that height's columns, otherwise the lower/upper
neighbors guarded by Python truthiness (`if lower:` and
`if upper and upper != lower:`, so a neighbor height of `0` is skipped,
being falsy). -/
def relevantColumnsFor (m : HeightMap) (avail : List Int) (height : Int) : List String :=
  match mlookup m height with
  | some cols => cols
  | none =>
    let lower := pyMaxLE avail height
    let upper := pyMinGE avail height
    (match lower with
      | some lo => if lo ≠ 0 then (mlookup m lo).getD [] else []
      | none => []) ++
    (match upper with
      | some up => if up ≠ 0 ∧ lower ≠ some up then (mlookup m up).getD [] else []
      | none => [])

/-- The accumulation of `relevant_columns` over the requested heights. -/
def collectRelevant (m : HeightMap) (avail : List Int) : List Int → List String
  | [] => []
  | h :: hs => relevantColumnsFor m avail h ++ collectRelevant m avail hs

/-- `client_base.find_relevant_columns`: resolve each requested height to
column names, then `list(sorted(dict.fromkeys(relevant_columns)))`. -/
def find_relevant_columns (m : HeightMap) (heights : List Int) : List String :=
  let avail := List.insertionSort (· ≤ ·) (mapKeys m)
  pySort (pyDedup (collectRelevant m avail heights))

/-- A height map whose lowest available height is `0`: the Python truthiness
test `if lower:` skips this neighbor, refuting claim C1 as stated. -/
def zeroHeightMap : HeightMap :=
  [(0, ["winddirection_0m"]), (10, ["windspeed_10m"])]

/-- A well-formed height map with positive heights, used to instantiate
`find_relevant_columns_single_height` at concrete inputs. -/
def wtkHeightMap : HeightMap :=
  [(10, ["winddirection_10m", "windspeed_10m"]), (30, ["windspeed_30m"])]

/-! ### Location records and nearest-neighbor search
(`client_base.find_nearest_location`, `client_base.find_n_nearest_locations`)

`self.location_gdf` holds one row per grid location with an `'index'` id
column and a point geometry; `build_kdtree` indexes the `(geometry.x,
geometry.y)` pairs, i.e. `(longitude, latitude)`.  `cKDTree.query` is
embedded at its documented semantics: the neighbor indices sorted by
non-decreasing Euclidean distance from the query point (equivalently by
squared distance, which is what is compared here since squaring is monotone
on non-negative reals); when `k` exceeds the number of points the missing
neighbors are reported with index `n`, and when `k = 1` the result is
squeezed to a scalar. -/

/-- One row of `location_gdf`: the `'index'` id and the point coordinates
(`x` = longitude, `y` = latitude). -/
structure LocationRecord where
  id : String
  x : ℚ
  y : ℚ
deriving DecidableEq, Repr

/-- Squared Euclidean distance from a record's point to the query point. -/
def sqDist (r : LocationRecord) (qx qy : ℚ) : ℚ :=
  (r.x - qx) ^ 2 + (r.y - qy) ^ 2

/-- Squared distance of the record at position `i` (0 for an out-of-range
position, which the claims never reach). -/
def distAt (recs : List LocationRecord) (qx qy : ℚ) (i : Nat) : ℚ :=
  match recs.get? i with
  | some r => sqDist r qx qy
  | none => 0

/-- Comparison of positions by distance to the query point, the order in
which `cKDTree.query` reports neighbors. -/
def distLeR (recs : List LocationRecord) (qx qy : ℚ) (i j : Nat) : Prop :=
  distAt recs qx qy i ≤ distAt recs qx qy j

instance distLeR.decidableRel (recs : List LocationRecord) (qx qy : ℚ) :
    DecidableRel (distLeR recs qx qy) := fun i j =>
  inferInstanceAs (Decidable (distAt recs qx qy i ≤ distAt recs qx qy j))

instance distLeR.isTotal (recs : List LocationRecord) (qx qy : ℚ) :
    IsTotal Nat (distLeR recs qx qy) :=
  ⟨fun _ _ => le_total _ _⟩

instance distLeR.isTrans (recs : List LocationRecord) (qx qy : ℚ) :
    IsTrans Nat (distLeR recs qx qy) :=
  ⟨fun _ _ _ => le_trans⟩

/-- All record positions sorted by distance to the query point: the order in
which the KD-tree reports neighbors. -/
def kdSortedIdxs (recs : List LocationRecord) (qx qy : ℚ) : List Nat :=
  List.insertionSort (distLeR recs qx qy) (List.range recs.length)

/-- The id stored at position `i` (`iloc[i]['index']`). -/
def idAt (recs : List LocationRecord) (i : Nat) : String :=
  ((recs.get? i).map LocationRecord.id).getD ""

/-- `client_base.find_nearest_location`: `kdtree.query([long, lat])` (the
squeezed `k = 1` form returning a single position) followed by
`iloc[nearest_idx]['index']`. -/
def find_nearest_location (recs : List LocationRecord) (lat long : ℚ) : Option String :=
  match kdSortedIdxs recs long lat with
  | [] => none
  | i :: _ => (recs.get? i).map LocationRecord.id

/-- The index array `cKDTree.query([qx, qy], k=n)` returns for `n ≥ 2`: the
first `min(n, len)` positions sorted by distance, padded with the
out-of-range sentinel position `len` for missing neighbors. -/
def kdIdxList (recs : List LocationRecord) (qx qy : ℚ) (n : Int) : List Nat :=
  (kdSortedIdxs recs qx qy).take n.toNat ++
    List.replicate (n.toNat - recs.length) recs.length

/-- `client_base.find_n_nearest_locations`: `kdtree.query([long, lat], k=n)`
followed by `iloc[...]['index'].tolist()`.  `cKDTree.query` raises
`ValueError` for `k < 1`; for `k = 1` it squeezes its results to scalars, so
`iloc` yields a single row and the trailing `.tolist()` on its plain-string
`'index'` value raises `AttributeError`; for `k` larger than the number of
points the missing neighbors carry index `n`, on which `iloc` raises
`IndexError`. -/
def find_n_nearest_locations (recs : List LocationRecord) (lat long : ℚ) (n : Int) :
    Except PyErr (List String) :=
  if n < 1 then .error .valueError
  else if n = 1 then .error .attributeError
  else if ∀ i ∈ kdIdxList recs long lat n, i < recs.length then
    .ok ((kdIdxList recs long lat n).map (idAt recs))
  else .error .indexError

/-- Grid used to instantiate `find_nearest_location_self`. -/
def nearestDemoRecs : List LocationRecord :=
  [⟨"000001", 0, 0⟩, ⟨"000002", 3, 4⟩]

/-- Grid used for the `find_n_nearest_locations` counterexample and
witness. -/
def nnDemoRecs : List LocationRecord :=
  [⟨"000001", 0, 0⟩, ⟨"000002", 1, 0⟩, ⟨"000003", 2, 0⟩]

/-! ### Athena polling backoff (`client_base.query_athena`)

The polling loop sleeps for `wait_time` whenever the reported state is
`RUNNING` or `QUEUED`, then doubles `wait_time` capped at 5 seconds.  The
embedding records the sequence of sleep intervals for a query that stays
pending for `k` status polls before reaching a terminal state. -/

/-- The initial `wait_time`: 0.5 seconds, or 0.1 when `reduce_poll` is
set. -/
def initWait (reducePoll : Bool) : ℚ :=
  if reducePoll then 1 / 10 else 1 / 2

/-- Sleep intervals of the polling loop for a query pending for `k` polls:
sleep `w`, then continue with `min (w * 2) 5`. -/
def athenaSleeps : Nat → ℚ → List ℚ
  | 0, _ => []
  | k + 1, w => w :: athenaSleeps k (min (w * 2) 5)

/-- The sleep intervals `query_athena` performs for a query that reports
`RUNNING`/`QUEUED` on its first `k` status polls and a terminal state
afterwards. -/
def queryAthenaSleeps (k : Nat) (reducePoll : Bool) : List ℚ :=
  athenaSleeps k (initWait reducePoll)

/-! ### The WTK session client (`windwatts_wtk_client.WindwattsWTKClient`)

The session fields relevant to the claims are embedded as an explicit state
record; Athena is an oracle argument (`remote`), and `self.df` holds the
fetched rows.  Python floats are embedded as exact rationals plus a NaN
constructor: every NaN bit pattern compares unequal to everything under
Python `==`, which `pyEq` captures (bitwise-equal floats are equal values of
`PyFloat`; the two zero bit patterns both map to `fin 0`, which only makes
`pyEq` coarser on the `==`-equal side and is irrelevant to the claims). -/

/-- A Python float: NaN, or an exact (finite) value. -/
inductive PyFloat where
  | nan
  | fin (q : ℚ)
deriving DecidableEq, Repr

/-- Python `==` on floats: false whenever either side is NaN. -/
def pyEq (a b : PyFloat) : Bool :=
  match a, b with
  | .fin x, .fin y => x == y
  | _, _ => false

/-- Python `stored == arg` where `stored : Optional[float]` may be `None`
(`None == x` is `False`). -/
def pyOptEq (o : Option PyFloat) (v : PyFloat) : Bool :=
  match o with
  | some w => pyEq w v
  | none => false

/-- One row of the fetched timeseries table: the `year` and `mohr` columns
and the `windspeed_{h}m` columns keyed by height. -/
structure WTKRow where
  year : Int
  mohr : Int
  speeds : List (Int × ℚ)
deriving DecidableEq, Repr

/-- The session state of `WindwattsWTKClient`: the memoized table and
averages, the coordinates and height they were computed for, plus a count of
remote query executions (each `query_athena` call). -/
structure WTKState where
  columnMapping : HeightMap
  df : Option (List WTKRow)
  currentLat : Option PyFloat
  currentLong : Option PyFloat
  globalAvg : Option ℚ
  yearlyAvg : Option (List (Int × ℚ))
  monthlyAvg : Option (List (Int × ℚ))
  hourlyAvg : Option (List (Int × ℚ))
  currentHeight : Option Int
  queries : Nat
deriving DecidableEq, Repr

/-- `WindwattsWTKClient.pre_check`: `lat`/`long` must be given (they are
floats here, so the `isinstance` checks pass), `height` must be truthy
(`if not height` rejects both `None` and `0`) and an `int`, and must be a
key of the column mapping. -/
def pre_check (m : HeightMap) (lat long : Option PyFloat) (height : Option Int) :
    Except PyErr Unit :=
  if lat.isNone then .error .valueError
  else if long.isNone then .error .valueError
  else
    match height with
    | none => .error .typeError
    | some h =>
      if h = 0 then .error .typeError
      else if (mlookup m h).isNone then .error .valueError
      else .ok ()

/-- `WindwattsWTKClient.reset_averages_if_height_changes`. -/
def reset_averages_if_height_changes (s : WTKState) (height : Int) : WTKState :=
  if s.currentHeight ≠ some height then
    { s with globalAvg := none, yearlyAvg := none, monthlyAvg := none,
             hourlyAvg := none, currentHeight := some height }
  else s

/-- `WindwattsWTKClient.fetch_data` (lat/long validation passes for float
arguments; `_reset_index_` only touches fields outside this state
projection).  If the table is loaded and both stored coordinates compare
`==`-equal to the arguments, return `False` without remote interaction;
otherwise run the query (one remote execution, counted even when it fails)
and on success store the table and coordinates, returning `True`. -/
def fetch_data (s : WTKState) (lat long : PyFloat)
    (remote : Except PyErr (List WTKRow)) : WTKState × Except PyErr Bool :=
  if s.df.isSome && pyOptEq s.currentLat lat && pyOptEq s.currentLong long then
    (s, .ok false)
  else
    match remote with
    | .error e => ({ s with queries := s.queries + 1 }, .error e)
    | .ok rows =>
      ({ s with df := some rows, currentLat := some lat, currentLong := some long,
                queries := s.queries + 1 }, .ok true)

/-- Mean of a list of rationals (`Series.mean`). -/
def listMean (l : List ℚ) : ℚ :=
  l.sum / l.length

/-- Round half to even (Python `round` on an exact value). -/
def roundHalfEven (x : ℚ) : Int :=
  if x - ⌊x⌋ < 1 / 2 then ⌊x⌋
  else if 1 / 2 < x - ⌊x⌋ then ⌊x⌋ + 1
  else if ⌊x⌋ % 2 = 0 then ⌊x⌋ else ⌊x⌋ + 1

/-- Python `round(x, 2)` on an exact value (binary float representation
error is not modeled; no claim depends on rounded values). -/
def pyRound2 (x : ℚ) : ℚ :=
  (roundHalfEven (x * 100) : ℚ) / 100

/-- The `windspeed_{h}m` column of the table: `none` when some row lacks the
column (pandas would raise a `KeyError`, wrapped into `RuntimeError`). -/
def colVals (rows : List WTKRow) (h : Int) : Option (List ℚ) :=
  if ∀ r ∈ rows, (mlookup r.speeds h).isSome then
    some (rows.map (fun r => (mlookup r.speeds h).getD 0))
  else none

/-- `df.groupby(key)[col].mean().reset_index().round(2).sort_values(key)`:
one `(key, rounded mean)` pair per distinct key value in ascending key
order. -/
def groupMeans (rows : List WTKRow) (key : WTKRow → Int) (h : Int) :
    Option (List (Int × ℚ)) :=
  match colVals rows h with
  | none => none
  | some _ =>
    some ((List.insertionSort (· ≤ ·) (pyDedup (rows.map key))).map (fun k =>
      (k, pyRound2 (listMean ((rows.filter (fun r => key r == k)).map
        (fun r => (mlookup r.speeds h).getD 0))))))

/-- Python `self.df['mohr'] // 100` (floor division). -/
def monthOf (r : WTKRow) : Int :=
  Int.fdiv r.mohr 100

/-- Python `self.df['mohr'] % 100` (sign follows the divisor, as `Int.emod`
does for a positive divisor). -/
def hourOf (r : WTKRow) : Int :=
  r.mohr % 100

/-- The post-pre-check body of `fetch_global_avg_at_height`: reset memoized
averages on height change, fetch (any fetch error discards the stored table
and re-raises as `RuntimeError`), guard against an absent or empty table,
serve the memoized average when nothing new was fetched, else compute,
memoize and return the rounded global mean. -/
def globalAvgBody (s : WTKState) (la lo : PyFloat) (h : Int)
    (remote : Except PyErr (List WTKRow)) : WTKState × Except PyErr ℚ :=
  match fetch_data (reset_averages_if_height_changes s h) la lo remote with
  | (s2, .error _) => ({ s2 with df := none }, .error .runtimeError)
  | (s2, .ok fetched) =>
    match s2.df with
    | none => (s2, .error .runtimeError)
    | some rows =>
      if rows.isEmpty then (s2, .error .runtimeError)
      else if fetched = false ∧ s2.globalAvg.isSome then (s2, .ok (s2.globalAvg.getD 0))
      else
        match colVals rows h with
        | none => (s2, .error .runtimeError)
        | some vs => ({ s2 with globalAvg := some (pyRound2 (listMean vs)) },
            .ok (pyRound2 (listMean vs)))

/-- `WindwattsWTKClient.fetch_global_avg_at_height`.  A passing pre-check
forces all three arguments present, so the `getD` defaults are
unreachable. -/
def fetch_global_avg_at_height (s : WTKState) (lat long : Option PyFloat)
    (height : Option Int) (remote : Except PyErr (List WTKRow)) :
    WTKState × Except PyErr ℚ :=
  match pre_check s.columnMapping lat long height with
  | .error e => (s, .error e)
  | .ok _ => globalAvgBody s (lat.getD (.fin 0)) (long.getD (.fin 0)) (height.getD 0) remote

/-- The post-pre-check body of `fetch_yearly_avg_at_height` (same structure
as the global average, memoizing the by-year means). -/
def yearlyAvgBody (s : WTKState) (la lo : PyFloat) (h : Int)
    (remote : Except PyErr (List WTKRow)) : WTKState × Except PyErr (List (Int × ℚ)) :=
  match fetch_data (reset_averages_if_height_changes s h) la lo remote with
  | (s2, .error _) => ({ s2 with df := none }, .error .runtimeError)
  | (s2, .ok fetched) =>
    match s2.df with
    | none => (s2, .error .runtimeError)
    | some rows =>
      if rows.isEmpty then (s2, .error .runtimeError)
      else if fetched = false ∧ s2.yearlyAvg.isSome then (s2, .ok (s2.yearlyAvg.getD []))
      else
        match groupMeans rows WTKRow.year h with
        | none => (s2, .error .runtimeError)
        | some ga => ({ s2 with yearlyAvg := some ga }, .ok ga)

/-- `WindwattsWTKClient.fetch_yearly_avg_at_height`. -/
def fetch_yearly_avg_at_height (s : WTKState) (lat long : Option PyFloat)
    (height : Option Int) (remote : Except PyErr (List WTKRow)) :
    WTKState × Except PyErr (List (Int × ℚ)) :=
  match pre_check s.columnMapping lat long height with
  | .error e => (s, .error e)
  | .ok _ => yearlyAvgBody s (lat.getD (.fin 0)) (long.getD (.fin 0)) (height.getD 0) remote

/-- The post-pre-check body of `fetch_monthly_avg_at_height` (the derived
`month` column is `mohr // 100`). -/
def monthlyAvgBody (s : WTKState) (la lo : PyFloat) (h : Int)
    (remote : Except PyErr (List WTKRow)) : WTKState × Except PyErr (List (Int × ℚ)) :=
  match fetch_data (reset_averages_if_height_changes s h) la lo remote with
  | (s2, .error _) => ({ s2 with df := none }, .error .runtimeError)
  | (s2, .ok fetched) =>
    match s2.df with
    | none => (s2, .error .runtimeError)
    | some rows =>
      if rows.isEmpty then (s2, .error .runtimeError)
      else if fetched = false ∧ s2.monthlyAvg.isSome then (s2, .ok (s2.monthlyAvg.getD []))
      else
        match groupMeans rows monthOf h with
        | none => (s2, .error .runtimeError)
        | some ga => ({ s2 with monthlyAvg := some ga }, .ok ga)

/-- `WindwattsWTKClient.fetch_monthly_avg_at_height`. -/
def fetch_monthly_avg_at_height (s : WTKState) (lat long : Option PyFloat)
    (height : Option Int) (remote : Except PyErr (List WTKRow)) :
    WTKState × Except PyErr (List (Int × ℚ)) :=
  match pre_check s.columnMapping lat long height with
  | .error e => (s, .error e)
  | .ok _ => monthlyAvgBody s (lat.getD (.fin 0)) (long.getD (.fin 0)) (height.getD 0) remote

/-- The post-pre-check body of `fetch_hourly_avg_at_height` (the derived
`hour` column is `mohr % 100`). -/
def hourlyAvgBody (s : WTKState) (la lo : PyFloat) (h : Int)
    (remote : Except PyErr (List WTKRow)) : WTKState × Except PyErr (List (Int × ℚ)) :=
  match fetch_data (reset_averages_if_height_changes s h) la lo remote with
  | (s2, .error _) => ({ s2 with df := none }, .error .runtimeError)
  | (s2, .ok fetched) =>
    match s2.df with
    | none => (s2, .error .runtimeError)
    | some rows =>
      if rows.isEmpty then (s2, .error .runtimeError)
      else if fetched = false ∧ s2.hourlyAvg.isSome then (s2, .ok (s2.hourlyAvg.getD []))
      else
        match groupMeans rows hourOf h with
        | none => (s2, .error .runtimeError)
        | some ga => ({ s2 with hourlyAvg := some ga }, .ok ga)

/-- `WindwattsWTKClient.fetch_hourly_avg_at_height`. -/
def fetch_hourly_avg_at_height (s : WTKState) (lat long : Option PyFloat)
    (height : Option Int) (remote : Except PyErr (List WTKRow)) :
    WTKState × Except PyErr (List (Int × ℚ)) :=
  match pre_check s.columnMapping lat long height with
  | .error e => (s, .error e)
  | .ok _ => hourlyAvgBody s (lat.getD (.fin 0)) (long.getD (.fin 0)) (height.getD 0) remote

/-- The session state after a successful fetch at `(la, lo)` returning
`rows`: one more remote execution, table and coordinates stored. -/
def fetchedState (s : WTKState) (la lo : PyFloat) (rows : List WTKRow) : WTKState :=
  { s with df := some rows, currentLat := some la, currentLong := some lo,
           queries := s.queries + 1 }

/-- Session state used to instantiate the WTK client claims: all four
averages memoized for height 30. -/
def avgDemoState : WTKState :=
  { columnMapping := [(30, ["windspeed_30m"]), (100, ["windspeed_100m"])],
    df := some [{ year := 2020, mohr := 101, speeds := [(30, 5), (100, 7)] }],
    currentLat := some (.fin 40), currentLong := some (.fin (-105)),
    globalAvg := some 5, yearlyAvg := some [(2020, 5)],
    monthlyAvg := some [(1, 5)], hourlyAvg := some [(1, 5)],
    currentHeight := some 30, queries := 1 }

/-- Session state whose stored latitude is NaN (with the raw table
loaded). -/
def nanCacheState : WTKState :=
  { columnMapping := [(30, ["windspeed_30m"])],
    df := some [{ year := 2020, mohr := 101, speeds := [(30, 5)] }],
    currentLat := some .nan, currentLong := some (.fin 0),
    globalAvg := none, yearlyAvg := none, monthlyAvg := none, hourlyAvg := none,
    currentHeight := some 30, queries := 1 }

/-- A session whose column mapping has `0` as a key, to instantiate
`avg_height_zero_type_error` in the case the claim singles out. -/
def zeroKeyState : WTKState :=
  { columnMapping := [(0, ["windspeed_0m"]), (30, ["windspeed_30m"])],
    df := none, currentLat := none, currentLong := none,
    globalAvg := none, yearlyAvg := none, monthlyAvg := none, hourlyAvg := none,
    currentHeight := none, queries := 0 }

/-! ### Batch download (`wtk_client_full_hourly.download_full_hourly_data`)

The embedding starts after parameter validation, local-directory creation
and nearest-location resolution: `indexes` is the resolved location list and
`dl` is the oracle saying whether the S3 fetch and Parquet-to-CSV conversion
of a given key succeed.  The source's `try` block is indented OUTSIDE the
inner `for year in years` loop: the inner loop only rebinds `s3_key` /
`local_csv_path`, and one download attempt per LOCATION is then made with
the bindings of the last year.  `bound` carries those two variable bindings
across iterations (referencing them before any assignment would raise
`NameError`). -/

/-- The S3 key
`ts-parquet/year={year}/varset={varset}/index={index}/{index}_{year}_{varset}.parquet`. -/
def mkS3Key (varset idx : String) (year : Int) : String :=
  "ts-parquet/year=" ++ toString year ++ "/varset=" ++ varset ++ "/index=" ++ idx ++
    "/" ++ idx ++ "_" ++ toString year ++ "_" ++ varset ++ ".parquet"

/-- The local path `os.path.join(local_dir, f"{index}_{year}_{varset}.csv")`. -/
def mkCsvPath (localDir idx : String) (year : Int) (varset : String) : String :=
  localDir ++ "/" ++ idx ++ "_" ++ toString year ++ "_" ++ varset ++ ".csv"

/-- Loop state of `download_full_hourly_data`: the current `s3_key` /
`local_csv_path` bindings, the keys whose download was attempted, and the
paths of the successfully converted files. -/
structure DlState where
  bound : Option (String × String)
  attempted : List String
  downloaded : List String
deriving DecidableEq, Repr

/-- One iteration of the outer `for index in indexes` loop: the inner
`for year in years` loop only rebinds `s3_key` and `local_csv_path` (so
after it they carry the LAST year's values), then the try-block attempts a
single download, appending the CSV path on success and merely logging the
failure otherwise. -/
def dlStep (years : List Int) (varset localDir : String) (dl : String → Bool)
    (st : DlState) (idx : String) : Except PyErr DlState :=
  match years.foldl
      (fun _ year => some (mkS3Key varset idx year, mkCsvPath localDir idx year varset))
      st.bound with
  | none => .error .nameError
  | some (k, p) =>
    .ok { bound := some (k, p), attempted := st.attempted ++ [k],
          downloaded := if dl k then st.downloaded ++ [p] else st.downloaded }

/-- The download loop of `download_full_hourly_data` (steps 2 of the
source), threading the loop state through the resolved locations. -/
def downloadLoop (years : List Int) (indexes : List String) (varset localDir : String)
    (dl : String → Bool) : Except PyErr DlState :=
  indexes.foldlM (dlStep years varset localDir dl)
    { bound := none, attempted := [], downloaded := [] }

/-- `wtk_client_full_hourly.download_full_hourly_data` after validation and
location resolution: returns the list of successfully downloaded file
paths. -/
def download_full_hourly_data (years : List Int) (indexes : List String)
    (varset localDir : String) (dl : String → Bool) : Except PyErr (List String) :=
  (downloadLoop years indexes varset localDir dl).map DlState.downloaded

theorem charsLe_total (as bs : List Char) : charsLe as bs = true ∨ charsLe bs as = true := by
  induction as generalizing bs with
  | nil => left; rfl
  | cons a as ih =>
    cases bs with
    | nil => right; rfl
    | cons b bs =>
      rcases lt_trichotomy a b with h | h | h
      · left; simp [charsLe, h]
      · subst h
        rcases ih bs with h | h
        · left; simp [charsLe, h, lt_irrefl]
        · right; simp [charsLe, h, lt_irrefl]
      · right; simp [charsLe, h]

theorem charsLe_trans (as bs cs : List Char) (h1 : charsLe as bs = true)
    (h2 : charsLe bs cs = true) : charsLe as cs = true := by
  induction as generalizing bs cs with
  | nil => rfl
  | cons a as ih =>
    cases bs with
    | nil => simp [charsLe] at h1
    | cons b bs =>
      cases cs with
      | nil => simp [charsLe] at h2
      | cons c cs =>
        rw [charsLe] at h1 h2 ⊢
        rcases lt_trichotomy a b with hab | hab | hab
        · rcases lt_trichotomy b c with hbc | hbc | hbc
          · rw [if_pos (lt_trans hab hbc)]
          · rw [← hbc, if_pos hab]
          · rw [if_neg (asymm hbc), if_pos hbc] at h2
            exact absurd h2 (by simp)
        · subst hab
          rcases lt_trichotomy a c with hac | hac | hac
          · rw [if_pos hac]
          · subst hac
            rw [if_neg (lt_irrefl a), if_neg (lt_irrefl a)] at h1 h2 ⊢
            exact ih _ _ h1 h2
          · rw [if_neg (asymm hac), if_pos hac] at h2
            exact absurd h2 (by simp)
        · rw [if_neg (asymm hab), if_pos hab] at h1
          exact absurd h1 (by simp)

theorem mem_pyDedupAux {α : Type} [DecidableEq α] (l : List α) :
    ∀ (seen : List α) (c : α), c ∈ pyDedupAux l seen ↔ c ∈ l ∧ c ∉ seen := by
  induction l with
  | nil => intro seen c; simp [pyDedupAux]
  | cons a l ih =>
    intro seen c
    by_cases ha : a ∈ seen
    · simp only [pyDedupAux, if_pos ha, ih, List.mem_cons]
      constructor
      · rintro ⟨hc, hcs⟩; exact ⟨Or.inr hc, hcs⟩
      · rintro ⟨hc | hc, hcs⟩
        · exact absurd (hc ▸ ha) hcs
        · exact ⟨hc, hcs⟩
    · simp only [pyDedupAux, if_neg ha, List.mem_cons, ih]
      constructor
      · rintro (rfl | ⟨hc, hcs⟩)
        · exact ⟨Or.inl rfl, ha⟩
        · exact ⟨Or.inr hc, fun hs => hcs (Or.inr hs)⟩
      · rintro ⟨rfl | hc, hcs⟩
        · exact Or.inl rfl
        · by_cases hca : c = a
          · exact Or.inl hca
          · refine Or.inr ⟨hc, fun hs => ?_⟩
            rcases hs with h | h
            · exact hca h
            · exact hcs h

theorem mem_pyDedup {α : Type} [DecidableEq α] (l : List α) (c : α) :
    c ∈ pyDedup l ↔ c ∈ l := by
  simp [pyDedup, mem_pyDedupAux]

theorem nodup_pyDedupAux {α : Type} [DecidableEq α] (l : List α) :
    ∀ seen : List α, (pyDedupAux l seen).Nodup := by
  induction l with
  | nil => intro seen; simp [pyDedupAux]
  | cons a l ih =>
    intro seen
    by_cases ha : a ∈ seen
    · simpa [pyDedupAux, if_pos ha] using ih seen
    · simp only [pyDedupAux, if_neg ha, List.nodup_cons]
      refine ⟨fun hmem => ?_, ih _⟩
      exact ((mem_pyDedupAux l _ a).mp hmem).2 (List.mem_cons_self _ _)

theorem nodup_pyDedup {α : Type} [DecidableEq α] (l : List α) : (pyDedup l).Nodup :=
  nodup_pyDedupAux l []

theorem mem_pySort (l : List String) (c : String) : c ∈ pySort l ↔ c ∈ l :=
  (List.perm_insertionSort strLeR l).mem_iff

theorem sorted_pySort (l : List String) : (pySort l).Sorted strLeR := by
  haveI : IsTotal String strLeR := ⟨fun a b => charsLe_total a.data b.data⟩
  haveI : IsTrans String strLeR := ⟨fun a b c => charsLe_trans a.data b.data c.data⟩
  exact List.sorted_insertionSort strLeR l

theorem nodup_pySort (l : List String) (h : l.Nodup) : (pySort l).Nodup :=
  ((List.perm_insertionSort strLeR l).nodup_iff).mpr h

theorem pyIndex_cons_ne (x a : String) (l : List String) (h : ¬a = x) :
    pyIndex x (a :: l) = (pyIndex x l).map (· + 1) := by
  simp [pyIndex, h]

theorem pyIndex_eq_none (x : String) (l : List String) :
    pyIndex x l = none ↔ x ∉ l := by
  induction l with
  | nil => simp [pyIndex]
  | cons a l ih =>
    by_cases ha : a = x
    · subst ha; simp [pyIndex]
    · rw [pyIndex_cons_ne _ _ _ ha, Option.map_eq_none', ih]
      constructor
      · intro hx hmem
        rcases List.mem_cons.mp hmem with rfl | hmem
        · exact ha rfl
        · exact hx hmem
      · intro hx hmem
        exact hx (List.mem_cons_of_mem _ hmem)

/-- Claim C3, corrected: the truncation keeps the prefix up to and including
the FIRST occurrence of the marker column `'index'` (Python `list.index`
returns the first hit), preserving declared order and discarding everything
after it; when the marker is absent the list is returned untouched. -/
theorem initColumnNames_first_marker (columnNames : List String) :
    initColumnNames columnNames =
      if "index" ∈ columnNames then
        columnNames.takeWhile (fun c => c ≠ "index") ++ ["index"]
      else columnNames := by
  induction columnNames with
  | nil => simp [initColumnNames, pyIndex]
  | cons a l ih =>
    by_cases ha : a = "index"
    · subst ha
      simp [initColumnNames, pyIndex, List.takeWhile]
    · by_cases hmem : "index" ∈ l
      · rcases h : pyIndex "index" l with _ | i
        · exact absurd ((pyIndex_eq_none _ _).mp h) (by simpa using hmem)
        · rw [initColumnNames, h, if_pos hmem] at ih
          have hih : List.take (i + 1) l =
              List.takeWhile (fun c => decide (c ≠ "index")) l ++ ["index"] := ih
          rw [initColumnNames, pyIndex_cons_ne _ _ _ ha, h]
          have hmem' : "index" ∈ a :: l := List.mem_cons_of_mem _ hmem
          rw [if_pos hmem']
          show List.take (i + 1 + 1) (a :: l) = _
          rw [List.take_succ_cons, hih, List.takeWhile_cons_of_pos (by simpa using ha)]
          rfl
      · have h : pyIndex "index" l = none := (pyIndex_eq_none _ _).mpr hmem
        rw [initColumnNames, pyIndex_cons_ne _ _ _ ha, h]
        have hmem' : "index" ∉ a :: l := by
          intro hm
          rcases List.mem_cons.mp hm with hm | hm
          · exact ha hm.symm
          · exact hmem hm
        rw [if_neg hmem']
        rfl

/-- Claim C3, counterexample to the claim as stated: on a column list in
which the marker `'index'` occurs twice, the code truncates at the first
occurrence, not at the last one as the spec asserts. -/
theorem initColumnNames_last_marker_cex :
    initColumnNames ["a", "index", "b", "index", "c"] = ["a", "index"] ∧
      truncateAtLastMarker ["a", "index", "b", "index", "c"] = ["a", "index", "b", "index"] ∧
      initColumnNames ["a", "index", "b", "index", "c"] ≠
        truncateAtLastMarker ["a", "index", "b", "index", "c"] := by
  refine ⟨by decide, by decide, by decide⟩

theorem mapKeys_cons (k : Int) (v : List String) (m : HeightMap) :
    mapKeys ((k, v) :: m) = k :: mapKeys m :=
  rfl

theorem mlookup_eq_none (m : HeightMap) (h : Int) :
    mlookup m h = none ↔ h ∉ mapKeys m := by
  induction m with
  | nil => simp [mlookup, mapKeys]
  | cons kv m ih =>
    obtain ⟨k, v⟩ := kv
    by_cases hk : k = h
    · subst hk; simp [mlookup, mapKeys]
    · rw [show mlookup ((k, v) :: m) h = mlookup m h from by rw [mlookup, if_neg hk], ih,
        mapKeys_cons]
      constructor
      · intro hm hmem
        rcases List.mem_cons.mp hmem with h1 | h1
        · exact hk h1.symm
        · exact hm h1
      · intro hmem hm
        exact hmem (List.mem_cons_of_mem _ hm)

theorem mlookup_isSome_mem (m : HeightMap) (h : Int) (cols : List String)
    (hl : mlookup m h = some cols) : h ∈ mapKeys m := by
  by_contra hmem
  rw [← mlookup_eq_none m h] at hmem
  rw [hmem] at hl
  exact Option.noConfusion hl

theorem le_foldl_max_init (l : List Int) : ∀ a : Int, a ≤ l.foldl max a := by
  induction l with
  | nil => intro a; exact le_refl _
  | cons b l ih =>
    intro a
    exact le_trans (le_max_left a b) (ih (max a b))

theorem foldl_max_le (l : List Int) : ∀ (a x : Int), x ∈ a :: l → x ≤ l.foldl max a := by
  induction l with
  | nil =>
    intro a x hx
    rcases List.mem_cons.mp hx with rfl | h
    · exact le_refl _
    · exact absurd h (List.not_mem_nil _)
  | cons b l ih =>
    intro a x hx
    show x ≤ l.foldl max (max a b)
    rcases List.mem_cons.mp hx with rfl | hx
    · exact le_trans (le_max_left x b) (le_foldl_max_init l _)
    · rcases List.mem_cons.mp hx with rfl | hx
      · exact le_trans (le_max_right a x) (le_foldl_max_init l _)
      · exact ih (max a b) x (List.mem_cons_of_mem _ hx)

theorem foldl_max_mem (l : List Int) : ∀ a : Int, l.foldl max a ∈ a :: l := by
  induction l with
  | nil => intro a; exact List.mem_cons_self _ _
  | cons b l ih =>
    intro a
    show l.foldl max (max a b) ∈ a :: b :: l
    rcases List.mem_cons.mp (ih (max a b)) with h | h
    · rw [h]
      rcases max_choice a b with hm | hm <;> rw [hm]
      · exact List.mem_cons_self _ _
      · exact List.mem_cons_of_mem _ (List.mem_cons_self _ _)
    · exact List.mem_cons_of_mem _ (List.mem_cons_of_mem _ h)

theorem foldl_min_init_le (l : List Int) : ∀ a : Int, l.foldl min a ≤ a := by
  induction l with
  | nil => intro a; exact le_refl _
  | cons b l ih =>
    intro a
    exact le_trans (ih (min a b)) (min_le_left a b)

theorem foldl_min_ge (l : List Int) : ∀ (a x : Int), x ∈ a :: l → l.foldl min a ≤ x := by
  induction l with
  | nil =>
    intro a x hx
    rcases List.mem_cons.mp hx with rfl | h
    · exact le_refl _
    · exact absurd h (List.not_mem_nil _)
  | cons b l ih =>
    intro a x hx
    show l.foldl min (min a b) ≤ x
    rcases List.mem_cons.mp hx with rfl | hx
    · exact le_trans (foldl_min_init_le l _) (min_le_left x b)
    · rcases List.mem_cons.mp hx with rfl | hx
      · exact le_trans (foldl_min_init_le l _) (min_le_right a x)
      · exact ih (min a b) x (List.mem_cons_of_mem _ hx)

theorem foldl_min_mem (l : List Int) : ∀ a : Int, l.foldl min a ∈ a :: l := by
  induction l with
  | nil => intro a; exact List.mem_cons_self _ _
  | cons b l ih =>
    intro a
    show l.foldl min (min a b) ∈ a :: b :: l
    rcases List.mem_cons.mp (ih (min a b)) with h | h
    · rw [h]
      rcases min_choice a b with hm | hm <;> rw [hm]
      · exact List.mem_cons_self _ _
      · exact List.mem_cons_of_mem _ (List.mem_cons_self _ _)
    · exact List.mem_cons_of_mem _ (List.mem_cons_of_mem _ h)

theorem pyMaxLE_eq_some (ks : List Int) (height v : Int) (hv : v ∈ ks) (hvh : v ≤ height)
    (hmax : ∀ k ∈ ks, k ≤ height → k ≤ v) : pyMaxLE ks height = some v := by
  have hvf : v ∈ ks.filter (fun k => k ≤ height) :=
    List.mem_filter.mpr ⟨hv, by simpa using hvh⟩
  rw [pyMaxLE]
  rcases hf : ks.filter (fun k => k ≤ height) with _ | ⟨a, l⟩
  · rw [hf] at hvf; exact absurd hvf (List.not_mem_nil _)
  · have hmem : l.foldl max a ∈ ks.filter (fun k => k ≤ height) := hf ▸ foldl_max_mem l a
    have hle : l.foldl max a ≤ v := by
      have h1 := List.mem_filter.mp hmem
      exact hmax _ h1.1 (by simpa using h1.2)
    have hge : v ≤ l.foldl max a := foldl_max_le l a v (hf ▸ hvf)
    exact congrArg some (le_antisymm hle hge)

theorem pyMaxLE_eq_none (ks : List Int) (height : Int)
    (h : ∀ k ∈ ks, ¬k ≤ height) : pyMaxLE ks height = none := by
  rw [pyMaxLE]
  have : ks.filter (fun k => k ≤ height) = [] := by
    rw [List.filter_eq_nil_iff]
    intro a ha
    simpa using h a ha
  rw [this]

theorem pyMinGE_eq_some (ks : List Int) (height v : Int) (hv : v ∈ ks) (hvh : height ≤ v)
    (hmin : ∀ k ∈ ks, height ≤ k → v ≤ k) : pyMinGE ks height = some v := by
  have hvf : v ∈ ks.filter (fun k => height ≤ k) :=
    List.mem_filter.mpr ⟨hv, by simpa using hvh⟩
  rw [pyMinGE]
  rcases hf : ks.filter (fun k => height ≤ k) with _ | ⟨a, l⟩
  · rw [hf] at hvf; exact absurd hvf (List.not_mem_nil _)
  · have hmem : l.foldl min a ∈ ks.filter (fun k => height ≤ k) := hf ▸ foldl_min_mem l a
    have hge : v ≤ l.foldl min a := by
      have h1 := List.mem_filter.mp hmem
      exact hmin _ h1.1 (by simpa using h1.2)
    have hle : l.foldl min a ≤ v := foldl_min_ge l a v (hf ▸ hvf)
    exact congrArg some (le_antisymm hle hge)

theorem mem_insertionSortInt (l : List Int) (x : Int) :
    x ∈ List.insertionSort (· ≤ ·) l ↔ x ∈ l :=
  (List.perm_insertionSort (· ≤ ·) l).mem_iff

theorem mem_find_relevant_columns (m : HeightMap) (h : Int) (c : String) :
    c ∈ find_relevant_columns m [h] ↔
      c ∈ relevantColumnsFor m (List.insertionSort (· ≤ ·) (mapKeys m)) h := by
  show c ∈ pySort (pyDedup (collectRelevant m _ [h])) ↔ _
  rw [mem_pySort, mem_pyDedup]
  show c ∈ relevantColumnsFor m _ h ++ collectRelevant m _ [] ↔ _
  rw [show collectRelevant m (List.insertionSort (· ≤ ·) (mapKeys m)) [] = [] from rfl,
    List.append_nil]

/-- Claim C1, counterexample to the claim as stated: for the height map
`{0: ['winddirection_0m'], 10: ['windspeed_10m']}` the requested height `5`
lies strictly between the available heights `0` and `10`, so the claim
demands the union of both neighbors' columns; but `find_relevant_columns`
drops the lower neighbor because `if lower:` treats the height `0` as falsy,
returning only the upper neighbor's columns. -/
theorem find_relevant_columns_zero_height_cex :
    find_relevant_columns zeroHeightMap [5] = ["windspeed_10m"] ∧
      mlookup zeroHeightMap 0 = some ["winddirection_0m"] ∧
      mlookup zeroHeightMap 10 = some ["windspeed_10m"] ∧
      mlookup zeroHeightMap 5 = none ∧
      (0 : Int) < 5 ∧ (5 : Int) < 10 ∧
      "winddirection_0m" ∉ find_relevant_columns zeroHeightMap [5] := by
  refine ⟨by decide, by decide, by decide, by decide, by decide, by decide, by decide⟩

/-- Claim C1 (amended: all available heights are positive; the code's
truthiness tests `if lower:` / `if upper ...:` drop a neighbor whose height
is exactly `0`): for a non-empty height map and a single requested height
`h`, the result of `find_relevant_columns m [h]` is lexicographically sorted
and duplicate-free, and as a set it is exactly that height's columns when
`h` is a key, the union of the nearest available heights below and above
when `h` lies strictly between two keys, and the minimum key's columns when
`h` is below the minimum available height. -/
theorem find_relevant_columns_single_height (m : HeightMap) (h : Int)
    (_hne : m ≠ []) (hpos : ∀ k ∈ mapKeys m, 0 < k) :
    ((find_relevant_columns m [h]).Sorted strLeR ∧ (find_relevant_columns m [h]).Nodup)
    ∧ (∀ cols, mlookup m h = some cols →
        ∀ c, c ∈ find_relevant_columns m [h] ↔ c ∈ cols)
    ∧ (∀ lo hi colsLo colsHi,
        mlookup m h = none →
        mlookup m lo = some colsLo →
        mlookup m hi = some colsHi →
        lo < h → h < hi →
        (∀ k ∈ mapKeys m, k < h → k ≤ lo) →
        (∀ k ∈ mapKeys m, h < k → hi ≤ k) →
        ∀ c, c ∈ find_relevant_columns m [h] ↔ c ∈ colsLo ∨ c ∈ colsHi)
    ∧ (∀ kmin colsMin,
        mlookup m kmin = some colsMin →
        (∀ k ∈ mapKeys m, kmin ≤ k) →
        h < kmin →
        ∀ c, c ∈ find_relevant_columns m [h] ↔ c ∈ colsMin) := by
  have hAvail : ∀ x, x ∈ List.insertionSort (· ≤ ·) (mapKeys m) ↔ x ∈ mapKeys m :=
    mem_insertionSortInt (mapKeys m)
  refine ⟨⟨sorted_pySort _, nodup_pySort _ (nodup_pyDedup _)⟩, ?_, ?_, ?_⟩
  · intro cols hcols c
    rw [mem_find_relevant_columns, relevantColumnsFor, hcols]
  · intro lo hi colsLo colsHi hnone hlo hhi hloh hhhi hmax hmin c
    have hloK : lo ∈ mapKeys m := mlookup_isSome_mem _ _ _ hlo
    have hhiK : hi ∈ mapKeys m := mlookup_isSome_mem _ _ _ hhi
    have hnotK : h ∉ mapKeys m := (mlookup_eq_none m h).mp hnone
    have hMaxEq : pyMaxLE (List.insertionSort (· ≤ ·) (mapKeys m)) h = some lo := by
      refine pyMaxLE_eq_some _ h lo ((hAvail lo).mpr hloK) (le_of_lt hloh) ?_
      intro k hk hkh
      rcases lt_or_eq_of_le hkh with hlt | heq
      · exact hmax k ((hAvail k).mp hk) hlt
      · exact absurd (heq ▸ (hAvail k).mp hk) hnotK
    have hMinEq : pyMinGE (List.insertionSort (· ≤ ·) (mapKeys m)) h = some hi := by
      refine pyMinGE_eq_some _ h hi ((hAvail hi).mpr hhiK) (le_of_lt hhhi) ?_
      intro k hk hkh
      rcases lt_or_eq_of_le hkh with hlt | heq
      · exact hmin k ((hAvail k).mp hk) hlt
      · exact absurd (heq ▸ (hAvail k).mp hk) (heq ▸ hnotK)
    have hlo0 : lo ≠ 0 := ne_of_gt (hpos lo hloK)
    have hhi0 : hi ≠ 0 := ne_of_gt (hpos hi hhiK)
    have hlohi : lo ≠ hi := ne_of_lt (lt_trans hloh hhhi)
    rw [mem_find_relevant_columns, relevantColumnsFor, hnone]
    simp only [hMaxEq, hMinEq]
    rw [if_pos hlo0, if_pos ⟨hhi0, fun hcontra => hlohi (Option.some_injective _ hcontra)⟩]
    rw [hlo, hhi]
    show c ∈ colsLo ++ colsHi ↔ _
    exact List.mem_append
  · intro kmin colsMin hminl hminall hhk c
    have hkK : kmin ∈ mapKeys m := mlookup_isSome_mem _ _ _ hminl
    have hnone : mlookup m h = none := by
      rw [mlookup_eq_none]
      intro hmemK
      exact absurd (hminall h hmemK) (not_le.mpr hhk)
    have hMaxEq : pyMaxLE (List.insertionSort (· ≤ ·) (mapKeys m)) h = none := by
      refine pyMaxLE_eq_none _ h ?_
      intro k hk
      exact not_le.mpr (lt_of_lt_of_le hhk (hminall k ((hAvail k).mp hk)))
    have hMinEq : pyMinGE (List.insertionSort (· ≤ ·) (mapKeys m)) h = some kmin := by
      refine pyMinGE_eq_some _ h kmin ((hAvail kmin).mpr hkK) (le_of_lt hhk) ?_
      intro k hk _
      exact hminall k ((hAvail k).mp hk)
    have hk0 : kmin ≠ 0 := ne_of_gt (hpos kmin hkK)
    rw [mem_find_relevant_columns, relevantColumnsFor, hnone]
    simp only [hMaxEq, hMinEq]
    rw [if_pos ⟨hk0, fun hcontra => Option.noConfusion hcontra⟩]
    rw [hminl]
    show c ∈ ([] : List String) ++ colsMin ↔ _
    rw [List.nil_append]

/-- Concrete instantiation of `find_relevant_columns_single_height`:
for the map `{10: [...], 30: [...]}` and the in-between height `20`, the
result contains exactly the columns of both neighbors. -/
theorem find_relevant_columns_single_height_witness :
    ((find_relevant_columns wtkHeightMap [20]).Sorted strLeR ∧
      (find_relevant_columns wtkHeightMap [20]).Nodup) ∧
    ("windspeed_30m" ∈ find_relevant_columns wtkHeightMap [20] ↔
      "windspeed_30m" ∈ ["winddirection_10m", "windspeed_10m"] ∨
        "windspeed_30m" ∈ ["windspeed_30m"]) ∧
    ("winddirection_10m" ∈ find_relevant_columns wtkHeightMap [20] ↔
      "winddirection_10m" ∈ ["winddirection_10m", "windspeed_10m"] ∨
        "winddirection_10m" ∈ ["windspeed_30m"]) :=
  ⟨(find_relevant_columns_single_height wtkHeightMap 20 (by decide) (by decide)).1,
    (find_relevant_columns_single_height wtkHeightMap 20 (by decide) (by decide)).2.2.1
      10 30 ["winddirection_10m", "windspeed_10m"] ["windspeed_30m"]
      (by decide) (by decide) (by decide) (by decide) (by decide) (by decide) (by decide)
      "windspeed_30m",
    (find_relevant_columns_single_height wtkHeightMap 20 (by decide) (by decide)).2.2.1
      10 30 ["winddirection_10m", "windspeed_10m"] ["windspeed_30m"]
      (by decide) (by decide) (by decide) (by decide) (by decide) (by decide) (by decide)
      "winddirection_10m"⟩

theorem kdSortedIdxs_perm (recs : List LocationRecord) (qx qy : ℚ) :
    (kdSortedIdxs recs qx qy).Perm (List.range recs.length) :=
  List.perm_insertionSort _ _

theorem kdSortedIdxs_sorted (recs : List LocationRecord) (qx qy : ℚ) :
    (kdSortedIdxs recs qx qy).Sorted (distLeR recs qx qy) :=
  List.sorted_insertionSort _ _

theorem kdSortedIdxs_length (recs : List LocationRecord) (qx qy : ℚ) :
    (kdSortedIdxs recs qx qy).length = recs.length := by
  rw [(kdSortedIdxs_perm recs qx qy).length_eq, List.length_range]

theorem kdSortedIdxs_mem_lt (recs : List LocationRecord) (qx qy : ℚ) (i : Nat)
    (h : i ∈ kdSortedIdxs recs qx qy) : i < recs.length :=
  List.mem_range.mp ((kdSortedIdxs_perm recs qx qy).mem_iff.mp h)

theorem sqDist_nonneg (r : LocationRecord) (qx qy : ℚ) : 0 ≤ sqDist r qx qy :=
  add_nonneg (sq_nonneg _) (sq_nonneg _)

theorem sqDist_eq_zero (r : LocationRecord) (qx qy : ℚ) (h : sqDist r qx qy = 0) :
    r.x = qx ∧ r.y = qy := by
  rw [sqDist] at h
  have hx2 : (r.x - qx) ^ 2 = 0 := by
    have h1 := sq_nonneg (r.x - qx)
    have h2 := sq_nonneg (r.y - qy)
    linarith
  have hy2 : (r.y - qy) ^ 2 = 0 := by
    have h1 := sq_nonneg (r.x - qx)
    linarith
  exact ⟨sub_eq_zero.mp (pow_eq_zero_iff two_ne_zero |>.mp hx2),
    sub_eq_zero.mp (pow_eq_zero_iff two_ne_zero |>.mp hy2)⟩

/-- Claim C9: querying `find_nearest_location` with a known record's own
coordinates (`lat` its `y`, `long` its `x`) returns that record's id,
provided its coordinates differ from every other record's. -/
theorem find_nearest_location_self (recs : List LocationRecord) (i : Nat)
    (hi : i < recs.length)
    (hdistinct : ∀ j (hj : j < recs.length), j ≠ i →
      (recs.get ⟨j, hj⟩).x ≠ (recs.get ⟨i, hi⟩).x ∨
        (recs.get ⟨j, hj⟩).y ≠ (recs.get ⟨i, hi⟩).y) :
    find_nearest_location recs (recs.get ⟨i, hi⟩).y (recs.get ⟨i, hi⟩).x =
      some (recs.get ⟨i, hi⟩).id := by
  rw [find_nearest_location]
  rcases hs : kdSortedIdxs recs (recs.get ⟨i, hi⟩).x (recs.get ⟨i, hi⟩).y with _ | ⟨j, t⟩
  · exfalso
    have hlen := kdSortedIdxs_length recs (recs.get ⟨i, hi⟩).x (recs.get ⟨i, hi⟩).y
    rw [hs] at hlen
    simp only [List.length_nil] at hlen
    omega
  · have hj : j < recs.length :=
      kdSortedIdxs_mem_lt recs _ _ j (by rw [hs]; exact List.mem_cons_self _ _)
    have himem : i ∈ j :: t := by
      rw [← hs]
      exact (kdSortedIdxs_perm recs _ _).mem_iff.mpr (List.mem_range.mpr hi)
    have hsorted := kdSortedIdxs_sorted recs (recs.get ⟨i, hi⟩).x (recs.get ⟨i, hi⟩).y
    rw [hs] at hsorted
    have hrel : distLeR recs (recs.get ⟨i, hi⟩).x (recs.get ⟨i, hi⟩).y j i := by
      rcases List.mem_cons.mp himem with rfl | hmem
      · exact le_refl _
      · exact (List.sorted_cons.mp hsorted).1 i hmem
    have hgeti : recs.get? i = some (recs.get ⟨i, hi⟩) := List.get?_eq_get hi
    have hgetj : recs.get? j = some (recs.get ⟨j, hj⟩) := List.get?_eq_get hj
    have hdi : distAt recs (recs.get ⟨i, hi⟩).x (recs.get ⟨i, hi⟩).y i = 0 := by
      rw [distAt, hgeti]
      show sqDist _ _ _ = 0
      rw [sqDist]
      ring
    rw [distLeR, hdi] at hrel
    have hdj0 : distAt recs (recs.get ⟨i, hi⟩).x (recs.get ⟨i, hi⟩).y j = 0 := by
      refine le_antisymm hrel ?_
      rw [distAt, hgetj]
      exact sqDist_nonneg _ _ _
    rw [distAt, hgetj] at hdj0
    have hcoords := sqDist_eq_zero _ _ _ hdj0
    have hji : j = i := by
      by_contra hne
      rcases hdistinct j hj hne with h | h
      · exact h hcoords.1
      · exact h hcoords.2
    subst hji
    show Option.map LocationRecord.id (recs.get? j) = some (recs.get ⟨j, hi⟩).id
    rw [hgeti]
    rfl

/-- Concrete instantiation of `find_nearest_location_self`: the query at
`(lat, long) = (4, 3)` returns the record sitting at `(x, y) = (3, 4)`. -/
theorem find_nearest_location_self_witness :
    find_nearest_location nearestDemoRecs 4 3 = some "000002" := by
  have h := find_nearest_location_self nearestDemoRecs 1 (by decide) ?_
  · exact h
  · intro j hj hne
    have hj2 : j < 2 := by simpa [nearestDemoRecs] using hj
    interval_cases j
    · exact Or.inl (by norm_num [nearestDemoRecs])
    · exact absurd rfl hne

/-- Claim C2, counterexample to the claim as stated: `n = 1` satisfies
`1 ≤ n ≤ |records|`, yet `find_n_nearest_locations` does not return a
one-element id list — `cKDTree.query` squeezes `k = 1` results to scalars,
so the trailing `.tolist()` is applied to a plain string and the call fails
instead. -/
theorem find_n_nearest_locations_k1_cex :
    (1 ≤ (1 : Int) ∧ (1 : Int) ≤ (nnDemoRecs.length : Int)) ∧
      find_n_nearest_locations nnDemoRecs 0 0 1 = .error .attributeError ∧
      ∀ ids : List String, find_n_nearest_locations nnDemoRecs 0 0 1 ≠ .ok ids := by
  refine ⟨by decide, by decide, fun ids h => ?_⟩
  rw [show find_n_nearest_locations nnDemoRecs 0 0 1 = .error .attributeError from by decide]
    at h
  exact Except.noConfusion h

/-- Claim C2 (amended: the successful range is `2 ≤ n ≤ |records|`; `n = 1`
also fails, because `cKDTree.query` squeezes `k = 1` results to a scalar and
the trailing `.tolist()` then fails — single-neighbor lookups are served by
`find_nearest_location` instead): for records with pairwise-distinct ids,
`find_n_nearest_locations(lat, long, n)` fails whenever `n < 1` or
`n > |records|`, and for `2 ≤ n ≤ |records|` returns exactly `n` distinct
ids ordered by non-decreasing Euclidean distance from `(long, lat)`. -/
theorem find_n_nearest_locations_correct (recs : List LocationRecord) (lat long : ℚ)
    (n : Int) (hids : (recs.map LocationRecord.id).Nodup) :
    ((n < 1 ∨ (recs.length : Int) < n) →
      ∃ e, find_n_nearest_locations recs lat long n = .error e)
    ∧ (2 ≤ n → n ≤ (recs.length : Int) →
      ∃ idxs : List Nat,
        find_n_nearest_locations recs lat long n = .ok (idxs.map (idAt recs)) ∧
        (idxs.map (idAt recs)).length = n.toNat ∧
        (idxs.map (idAt recs)).Nodup ∧
        (idxs.map (distAt recs long lat)).Sorted (· ≤ ·)) := by
  constructor
  · intro hbad
    by_cases h1 : n < 1
    · exact ⟨.valueError, by rw [find_n_nearest_locations, if_pos h1]⟩
    by_cases h2 : n = 1
    · exact ⟨.attributeError, by rw [find_n_nearest_locations, if_neg h1, if_pos h2]⟩
    have hlen : (recs.length : Int) < n := by
      rcases hbad with h | h
      · exact absurd h h1
      · exact h
    have hlt : recs.length < n.toNat := Int.lt_toNat.mpr hlen
    have hmemlen : recs.length ∈ kdIdxList recs long lat n := by
      rw [kdIdxList]
      exact List.mem_append_right _ (List.mem_replicate.mpr ⟨by omega, rfl⟩)
    refine ⟨.indexError, ?_⟩
    rw [find_n_nearest_locations, if_neg h1, if_neg h2,
      if_neg (fun hall => absurd (hall _ hmemlen) (lt_irrefl _))]
  · intro h2n hnlen
    have h1 : ¬n < 1 := by omega
    have h2 : ¬n = 1 := by omega
    have hnt : n.toNat ≤ recs.length := Int.toNat_le.mpr hnlen
    have hrep : n.toNat - recs.length = 0 := by omega
    have hidxs : kdIdxList recs long lat n = (kdSortedIdxs recs long lat).take n.toNat := by
      rw [kdIdxList, hrep, List.replicate_zero, List.append_nil]
    have hsub : ((kdSortedIdxs recs long lat).take n.toNat).Sublist (kdSortedIdxs recs long lat) :=
      List.take_sublist _ _
    have hallin : ∀ i ∈ kdIdxList recs long lat n, i < recs.length := by
      rw [hidxs]
      intro i hmem
      exact kdSortedIdxs_mem_lt recs long lat i (hsub.mem hmem)
    refine ⟨kdIdxList recs long lat n, ?_, ?_, ?_, ?_⟩
    · rw [find_n_nearest_locations, if_neg h1, if_neg h2, if_pos hallin]
    · rw [List.length_map, hidxs, List.length_take, kdSortedIdxs_length]
      omega
    · have hnds : (kdSortedIdxs recs long lat).Nodup :=
        (kdSortedIdxs_perm recs long lat).nodup_iff.mpr (List.nodup_range _)
      have hnd : (kdIdxList recs long lat n).Nodup := by
        rw [hidxs]
        exact hsub.nodup hnds
      refine List.Nodup.map_on ?_ hnd
      intro x hx y hy hxy
      have hxl : x < recs.length := hallin x hx
      have hyl : y < recs.length := hallin y hy
      have hxid : idAt recs x = (recs.map LocationRecord.id).get ⟨x, by simpa using hxl⟩ := by
        rw [idAt, List.get?_eq_get hxl, List.get_map]
        rfl
      have hyid : idAt recs y = (recs.map LocationRecord.id).get ⟨y, by simpa using hyl⟩ := by
        rw [idAt, List.get?_eq_get hyl, List.get_map]
        rfl
      rw [hxid, hyid] at hxy
      have := (List.Nodup.get_inj_iff hids).mp hxy
      exact congrArg Fin.val this
    · rw [hidxs]
      have hsor : (kdSortedIdxs recs long lat).Sorted (distLeR recs long lat) :=
        kdSortedIdxs_sorted recs long lat
      have htake : ((kdSortedIdxs recs long lat).take n.toNat).Sorted (distLeR recs long lat) :=
        List.Pairwise.sublist hsub hsor
      exact List.pairwise_map.mpr htake

/-- Concrete instantiation of `find_n_nearest_locations_correct` for a
three-record grid and `n = 2`. -/
theorem find_n_nearest_locations_correct_witness :
    ∃ idxs : List Nat,
      find_n_nearest_locations nnDemoRecs (1/4) 0 2 = .ok (idxs.map (idAt nnDemoRecs)) ∧
      (idxs.map (idAt nnDemoRecs)).length = (2 : Int).toNat ∧
      (idxs.map (idAt nnDemoRecs)).Nodup ∧
      (idxs.map (distAt nnDemoRecs 0 (1/4))).Sorted (· ≤ ·) :=
  (find_n_nearest_locations_correct nnDemoRecs (1/4) 0 2 (by decide)).2
    (by decide) (by decide)

theorem athenaSleeps_get (k : Nat) :
    ∀ (w : ℚ) (i : Nat), i < k → 0 < w → w ≤ 5 →
      (athenaSleeps k w).get? i = some (min (w * 2 ^ i) 5) := by
  induction k with
  | zero => intro w i hik _ _; omega
  | succ k ih =>
    intro w i hik hw0 hw5
    cases i with
    | zero =>
      rw [athenaSleeps]
      show some w = some (min (w * 2 ^ 0) 5)
      rw [pow_zero, mul_one, min_eq_left hw5]
    | succ i =>
      rw [athenaSleeps]
      show (athenaSleeps k (min (w * 2) 5)).get? i = _
      rw [ih (min (w * 2) 5) i (by omega) (lt_min (by linarith) (by norm_num))
        (min_le_right _ _)]
      have hp1 : (1 : ℚ) ≤ 2 ^ i := one_le_pow₀ (by norm_num)
      rcases le_or_lt (w * 2) 5 with h | h
      · rw [min_eq_left h]
        have : w * 2 * 2 ^ i = w * 2 ^ (i + 1) := by ring
        rw [this]
      · rw [min_eq_right (le_of_lt h)]
        have h1 : (5 : ℚ) ≤ 5 * 2 ^ i := by linarith
        have h2 : (5 : ℚ) ≤ w * 2 ^ (i + 1) := by
          have hwi : w * 2 ^ (i + 1) = w * 2 * 2 ^ i := by ring
          have hmul : 5 * 2 ^ i ≤ w * 2 * 2 ^ i :=
            mul_le_mul_of_nonneg_right (le_of_lt h) (by positivity)
          linarith
        rw [min_eq_right h1, min_eq_right h2]

/-- Claim C4: for a query pending for `k` status polls, the `i`-th sleep
interval (0-based here, so the claim's `min(w0 * 2^(i-1), 5)` at 1-based
position `i` reads `min(w0 * 2^i, 5)`) follows the doubling backoff from
`w0 = 0.5` (or `0.1` under `reduce_poll`) capped at 5 seconds; in
particular a job pending for 5 polls at the default initial wait produces
the sleep intervals `[0.5, 1, 2, 4, 5]`. -/
theorem query_athena_backoff (k : Nat) (reducePoll : Bool) (i : Nat) (hik : i < k) :
    (queryAthenaSleeps k reducePoll).get? i =
      some (min (initWait reducePoll * 2 ^ i) 5) ∧
    queryAthenaSleeps 5 false = [1/2, 1, 2, 4, 5] := by
  constructor
  · refine athenaSleeps_get k (initWait reducePoll) i hik ?_ ?_
    · cases reducePoll <;> norm_num [initWait]
    · cases reducePoll <;> norm_num [initWait]
  · show athenaSleeps 5 (initWait false) = _
    norm_num [initWait, athenaSleeps]

/-- Concrete instantiation of `query_athena_backoff`: the third sleep (index
2) of the default-wait schedule is `min(0.5 * 4, 5) = 2` seconds. -/
theorem query_athena_backoff_witness :
    (queryAthenaSleeps 5 false).get? 2 = some (min (initWait false * 2 ^ 2) 5) ∧
      queryAthenaSleeps 5 false = [1/2, 1, 2, 4, 5] :=
  query_athena_backoff 5 false 2 (by decide)

/-- Claim C6: `reset_averages_if_height_changes(h)` clears all four memoized
averages and records the new height exactly when `h` differs from the stored
`current_height`; when they agree the whole state (so in particular all five
fields) is left untouched. -/
theorem reset_averages_spec (s : WTKState) (h : Int) :
    (s.currentHeight ≠ some h →
      reset_averages_if_height_changes s h =
        { s with globalAvg := none, yearlyAvg := none, monthlyAvg := none,
                 hourlyAvg := none, currentHeight := some h })
    ∧ (s.currentHeight = some h → reset_averages_if_height_changes s h = s) := by
  constructor
  · intro hc
    rw [reset_averages_if_height_changes, if_pos hc]
  · intro hc
    rw [reset_averages_if_height_changes, if_neg (fun hne => hne hc)]

/-- Concrete instantiation of `reset_averages_spec`: changing the height
from 30 to 100 clears the four averages; re-requesting 30 changes
nothing. -/
theorem reset_averages_spec_witness :
    reset_averages_if_height_changes avgDemoState 100 =
      { avgDemoState with globalAvg := none, yearlyAvg := none,
                          monthlyAvg := none, hourlyAvg := none,
                          currentHeight := some 100 } ∧
    reset_averages_if_height_changes avgDemoState 30 = avgDemoState :=
  ⟨(reset_averages_spec avgDemoState 100).1 (by decide),
    (reset_averages_spec avgDemoState 30).2 (by decide)⟩

/-- Claim C5, counterexample to the claim as stated: the raw table is
loaded and the stored coordinates are bitwise-equal to the arguments (the
same NaN latitude bit pattern, plus an equal longitude), yet `fetch_data`
returns `True` and performs one more remote execution, because Python `==`
on NaN is false. -/
theorem fetch_data_nan_cex :
    nanCacheState.df.isSome = true ∧
    nanCacheState.currentLat = some PyFloat.nan ∧
    nanCacheState.currentLong = some (PyFloat.fin 0) ∧
    (fetch_data nanCacheState PyFloat.nan (PyFloat.fin 0)
      (.ok [{ year := 2020, mohr := 101, speeds := [(30, 5)] }])).2 = .ok true ∧
    (fetch_data nanCacheState PyFloat.nan (PyFloat.fin 0)
      (.ok [{ year := 2020, mohr := 101, speeds := [(30, 5)] }])).1.queries =
      nanCacheState.queries + 1 := by
  refine ⟨by decide, by decide, by decide, by decide, by decide⟩

/-- Claim C5 (amended: the stored coordinates are bitwise-equal NON-NAN
floats — for NaN coordinates Python `==` is false even on the identical bit
pattern, so the call re-fetches): with the raw table loaded and the stored
coordinates `==`-equal finite floats, `fetch_data` returns `False` and
leaves the state (in particular the remote-execution count) untouched;
and starting from a state with no table, two `fetch_data` calls with the
same finite coordinates perform exactly one remote execution, a third call
with different coordinates exactly one more. -/
theorem fetch_data_cache_correct (s s0 : WTKState) (a b : ℚ)
    (d rows1 rows2 rows3 : List WTKRow) (remote : Except PyErr (List WTKRow))
    (lat3 long3 : PyFloat) :
    (s.df = some d → s.currentLat = some (PyFloat.fin a) →
      s.currentLong = some (PyFloat.fin b) →
      fetch_data s (PyFloat.fin a) (PyFloat.fin b) remote = (s, .ok false))
    ∧ (s0.df = none →
      (pyEq (PyFloat.fin a) lat3 && pyEq (PyFloat.fin b) long3) = false →
      fetch_data s0 (PyFloat.fin a) (PyFloat.fin b) (.ok rows1) =
        (fetchedState s0 (PyFloat.fin a) (PyFloat.fin b) rows1, .ok true) ∧
      fetch_data (fetchedState s0 (PyFloat.fin a) (PyFloat.fin b) rows1)
          (PyFloat.fin a) (PyFloat.fin b) (.ok rows2) =
        (fetchedState s0 (PyFloat.fin a) (PyFloat.fin b) rows1, .ok false) ∧
      fetch_data (fetchedState s0 (PyFloat.fin a) (PyFloat.fin b) rows1)
          lat3 long3 (.ok rows3) =
        ({ s0 with df := some rows3, currentLat := some lat3,
                   currentLong := some long3,
                   queries := s0.queries + 2 }, .ok true)) := by
  constructor
  · intro hdf hla hlo
    rw [fetch_data.eq_def, if_pos (by simp [hdf, hla, hlo, pyOptEq, pyEq])]
  · intro hdf0 hdiff
    refine ⟨?_, ?_, ?_⟩
    · simp [fetch_data, hdf0, fetchedState]
    · simp [fetch_data, fetchedState, pyOptEq, pyEq]
    · simp only [fetch_data, fetchedState, pyOptEq, hdiff]
      simp [hdiff]

/-- The height-change reset never touches the cached table or the stored
coordinates. -/
theorem reset_preserves_cache_fields (s : WTKState) (h : Int) :
    (reset_averages_if_height_changes s h).df = s.df ∧
    (reset_averages_if_height_changes s h).currentLat = s.currentLat ∧
    (reset_averages_if_height_changes s h).currentLong = s.currentLong := by
  rw [reset_averages_if_height_changes]
  split <;> exact ⟨rfl, rfl, rfl⟩

/-- Claim C7: in each of the four averaging methods, when the internal data
fetch fails (cache miss and a failing remote query), the stored raw table is
discarded (`df = None`) and the call fails with `RuntimeError`. -/
theorem avg_fetch_failure_resets_df (s : WTKState) (la lo : PyFloat) (h : Int) (e : PyErr)
    (hh : h ≠ 0) (hmap : (mlookup s.columnMapping h).isSome = true)
    (hmiss : (s.df.isSome && pyOptEq s.currentLat la && pyOptEq s.currentLong lo) = false) :
    ((fetch_global_avg_at_height s (some la) (some lo) (some h) (.error e)).1.df = none ∧
      (fetch_global_avg_at_height s (some la) (some lo) (some h) (.error e)).2 =
        .error .runtimeError) ∧
    ((fetch_yearly_avg_at_height s (some la) (some lo) (some h) (.error e)).1.df = none ∧
      (fetch_yearly_avg_at_height s (some la) (some lo) (some h) (.error e)).2 =
        .error .runtimeError) ∧
    ((fetch_monthly_avg_at_height s (some la) (some lo) (some h) (.error e)).1.df = none ∧
      (fetch_monthly_avg_at_height s (some la) (some lo) (some h) (.error e)).2 =
        .error .runtimeError) ∧
    ((fetch_hourly_avg_at_height s (some la) (some lo) (some h) (.error e)).1.df = none ∧
      (fetch_hourly_avg_at_height s (some la) (some lo) (some h) (.error e)).2 =
        .error .runtimeError) := by
  obtain ⟨cols, hv⟩ := Option.isSome_iff_exists.mp hmap
  have hpc : pre_check s.columnMapping (some la) (some lo) (some h) = .ok () := by
    simp [pre_check, hh, hv]
  obtain ⟨hrdf, hrla, hrlo⟩ := reset_preserves_cache_fields s h
  have hfd : fetch_data (reset_averages_if_height_changes s h) la lo
      (Except.error (α := List WTKRow) e) =
      ({ reset_averages_if_height_changes s h with
          queries := (reset_averages_if_height_changes s h).queries + 1 }, .error e) := by
    rw [fetch_data, if_neg (by rw [hrdf, hrla, hrlo, hmiss]; simp)]
  have hg : fetch_global_avg_at_height s (some la) (some lo) (some h) (.error e) =
      globalAvgBody s la lo h (.error e) := by
    rw [fetch_global_avg_at_height, hpc]
    rfl
  have hy : fetch_yearly_avg_at_height s (some la) (some lo) (some h) (.error e) =
      yearlyAvgBody s la lo h (.error e) := by
    rw [fetch_yearly_avg_at_height, hpc]
    rfl
  have hm : fetch_monthly_avg_at_height s (some la) (some lo) (some h) (.error e) =
      monthlyAvgBody s la lo h (.error e) := by
    rw [fetch_monthly_avg_at_height, hpc]
    rfl
  have hr : fetch_hourly_avg_at_height s (some la) (some lo) (some h) (.error e) =
      hourlyAvgBody s la lo h (.error e) := by
    rw [fetch_hourly_avg_at_height, hpc]
    rfl
  refine ⟨?_, ?_, ?_, ?_⟩
  · rw [hg, globalAvgBody, hfd]
    exact ⟨rfl, rfl⟩
  · rw [hy, yearlyAvgBody, hfd]
    exact ⟨rfl, rfl⟩
  · rw [hm, monthlyAvgBody, hfd]
    exact ⟨rfl, rfl⟩
  · rw [hr, hourlyAvgBody, hfd]
    exact ⟨rfl, rfl⟩

/-- Concrete instantiation of `avg_fetch_failure_resets_df`: a failed fetch
from a loaded session with new coordinates leaves `df` absent in all four
methods. -/
theorem avg_fetch_failure_resets_df_witness :
    (fetch_global_avg_at_height avgDemoState (some (.fin 41)) (some (.fin (-104)))
        (some 30) (.error .runtimeError)).1.df = none ∧
    (fetch_yearly_avg_at_height avgDemoState (some (.fin 41)) (some (.fin (-104)))
        (some 30) (.error .runtimeError)).1.df = none ∧
    (fetch_monthly_avg_at_height avgDemoState (some (.fin 41)) (some (.fin (-104)))
        (some 30) (.error .runtimeError)).1.df = none ∧
    (fetch_hourly_avg_at_height avgDemoState (some (.fin 41)) (some (.fin (-104)))
        (some 30) (.error .runtimeError)).1.df = none := by
  have h := avg_fetch_failure_resets_df avgDemoState (.fin 41) (.fin (-104)) 30
    .runtimeError (by decide) (by decide) (by decide)
  exact ⟨h.1.1, h.2.1.1, h.2.2.1.1, h.2.2.2.1⟩

/-- Claim C10: calling any of the four averaging methods with `height = 0`
fails with `TypeError` and leaves the session state untouched (so in
particular performs no remote interaction), whatever the height map — even
a map in which `0` is a key — because `pre_check`'s truthiness test
`if not height` rejects `0` before the membership test runs. -/
theorem avg_height_zero_type_error (s : WTKState) (la lo : PyFloat)
    (remote : Except PyErr (List WTKRow)) :
    fetch_global_avg_at_height s (some la) (some lo) (some 0) remote =
      (s, .error .typeError) ∧
    fetch_yearly_avg_at_height s (some la) (some lo) (some 0) remote =
      (s, .error .typeError) ∧
    fetch_monthly_avg_at_height s (some la) (some lo) (some 0) remote =
      (s, .error .typeError) ∧
    fetch_hourly_avg_at_height s (some la) (some lo) (some 0) remote =
      (s, .error .typeError) := by
  have hpc : pre_check s.columnMapping (some la) (some lo) (some 0) = .error .typeError := by
    simp [pre_check]
  exact ⟨by rw [fetch_global_avg_at_height, hpc], by rw [fetch_yearly_avg_at_height, hpc],
    by rw [fetch_monthly_avg_at_height, hpc], by rw [fetch_hourly_avg_at_height, hpc]⟩

/-- Claim C8, the code bug exhibited: with one resolved location and the two
years `[2001, 2002]`, every download succeeding, the claim requires one
attempt per (location, year) pair — two attempts — but the code attempts
exactly one download (the `try` block sits outside the inner `for year`
loop, so only the last year's `s3_key` binding is ever used) and returns a
single file. -/
theorem download_full_hourly_data_last_year_only :
    downloadLoop [2001, 2002] ["000001"] "all" "downloads" (fun _ => true) =
      .ok { bound := some (mkS3Key "all" "000001" 2002,
                           mkCsvPath "downloads" "000001" 2002 "all"),
            attempted := [mkS3Key "all" "000001" 2002],
            downloaded := [mkCsvPath "downloads" "000001" 2002 "all"] } ∧
    download_full_hourly_data [2001, 2002] ["000001"] "all" "downloads" (fun _ => true) =
      .ok [mkCsvPath "downloads" "000001" 2002 "all"] ∧
    [mkS3Key "all" "000001" 2002].length = 1 ∧
    [2001, 2002].length * ["000001"].length = 2 ∧ (1 : Nat) ≠ 2 := by
  refine ⟨rfl, rfl, rfl, rfl, by decide⟩

/-- Concrete instantiation of `avg_height_zero_type_error` on a session
whose height map does contain the key `0`. -/
theorem avg_height_zero_type_error_witness :
    fetch_global_avg_at_height zeroKeyState (some (.fin 40)) (some (.fin (-105)))
      (some 0) (.ok []) = (zeroKeyState, .error .typeError) ∧
    fetch_yearly_avg_at_height zeroKeyState (some (.fin 40)) (some (.fin (-105)))
      (some 0) (.ok []) = (zeroKeyState, .error .typeError) ∧
    fetch_monthly_avg_at_height zeroKeyState (some (.fin 40)) (some (.fin (-105)))
      (some 0) (.ok []) = (zeroKeyState, .error .typeError) ∧
    fetch_hourly_avg_at_height zeroKeyState (some (.fin 40)) (some (.fin (-105)))
      (some 0) (.ok []) = (zeroKeyState, .error .typeError) :=
  avg_height_zero_type_error zeroKeyState (.fin 40) (.fin (-105)) (.ok [])

/-- Concrete instantiation of `fetch_data_cache_correct`: a cache-hit call
on a loaded session returns `False` leaving the state untouched, and a
fetch / cached re-fetch / new-coordinates fetch sequence from a fresh
session performs exactly two remote executions. -/
theorem fetch_data_cache_correct_witness :
    fetch_data avgDemoState (PyFloat.fin 40) (PyFloat.fin (-105)) (.ok []) =
      (avgDemoState, .ok false) ∧
    (fetch_data zeroKeyState (PyFloat.fin 40) (PyFloat.fin (-105))
        (.ok [{ year := 2020, mohr := 101, speeds := [(30, 5)] }]) =
      (fetchedState zeroKeyState (PyFloat.fin 40) (PyFloat.fin (-105))
        [{ year := 2020, mohr := 101, speeds := [(30, 5)] }], .ok true) ∧
    fetch_data (fetchedState zeroKeyState (PyFloat.fin 40) (PyFloat.fin (-105))
        [{ year := 2020, mohr := 101, speeds := [(30, 5)] }])
        (PyFloat.fin 40) (PyFloat.fin (-105)) (.ok []) =
      (fetchedState zeroKeyState (PyFloat.fin 40) (PyFloat.fin (-105))
        [{ year := 2020, mohr := 101, speeds := [(30, 5)] }], .ok false) ∧
    fetch_data (fetchedState zeroKeyState (PyFloat.fin 40) (PyFloat.fin (-105))
        [{ year := 2020, mohr := 101, speeds := [(30, 5)] }])
        (PyFloat.fin 41) (PyFloat.fin (-104))
        (.ok [{ year := 2021, mohr := 202, speeds := [(30, 6)] }]) =
      ({ zeroKeyState with df := some [{ year := 2021, mohr := 202, speeds := [(30, 6)] }],
                           currentLat := some (PyFloat.fin 41),
                           currentLong := some (PyFloat.fin (-104)),
                           queries := zeroKeyState.queries + 2 }, .ok true)) :=
  ⟨(fetch_data_cache_correct avgDemoState zeroKeyState 40 (-105)
      [{ year := 2020, mohr := 101, speeds := [(30, 5), (100, 7)] }]
      [{ year := 2020, mohr := 101, speeds := [(30, 5)] }] []
      [{ year := 2021, mohr := 202, speeds := [(30, 6)] }] (.ok [])
      (PyFloat.fin 41) (PyFloat.fin (-104))).1 (by decide) (by decide) (by decide),
    (fetch_data_cache_correct avgDemoState zeroKeyState 40 (-105)
      [{ year := 2020, mohr := 101, speeds := [(30, 5), (100, 7)] }]
      [{ year := 2020, mohr := 101, speeds := [(30, 5)] }] []
      [{ year := 2021, mohr := 202, speeds := [(30, 6)] }] (.ok [])
      (PyFloat.fin 41) (PyFloat.fin (-104))).2 (by decide) (by decide)⟩

end Windwatts
